import Mathlib

/-!
Verification of the test-double and scoped-patching engine described by the
repository's specification, against a shallow embedding of the repository's
source (`src/mypackage/a.py`, `src/mypackage/b.py`, `src/mypackage/c.py`,
`src/tests.py`).  The patching/mocking engine itself (`mock.Mock`,
`mock.patch`) is exercised by `src/tests.py` but its code is not part of the
repository, so those operations are modelled from the specification's own
description (each such definition says so in its doc comment).
-/

namespace MockExamples

/-! ### Scoped attribute patching: containers, PatchRecord, apply/restore -/

/-- A container (object, class or module) seen as a partial map from
attribute names to values: `c n = none` means attribute `n` is absent. -/
def Container (α : Type) : Type := String → Option α

/-- Attribute read: `getattr(c, n)`. -/
def getattrC {α : Type} (c : Container α) (n : String) : Option α := c n

/-- Attribute write: `setattr(c, n, v)`. -/
def setattrC {α : Type} (c : Container α) (n : String) (v : α) : Container α :=
  fun m => if m = n then some v else c m

/-- Attribute removal: `delattr(c, n)`. -/
def delattrC {α : Type} (c : Container α) (n : String) : Container α :=
  fun m => if m = n then none else c m

/-- Modelled from the spec: a `PatchRecord` captures the attribute name and
the original value of one in-flight substitution (`original = none` records
that the attribute did not previously exist).  The patch engine (`mock.patch`)
is not under `src/`. -/
structure PatchRecord (α : Type) where
  attributeName : String
  original : Option α

/-- Whether the patched attribute existed before `apply()`. -/
def PatchRecord.hadOriginalValue {α : Type} (r : PatchRecord α) : Bool :=
  r.original.isSome

/-- Modelled from the spec: `apply()` records whether the attribute
previously existed and, if so, its value; then writes the new value onto the
container (`patch` literally calls `getattr` then `setattr`). -/
def applyPatch {α : Type} (c : Container α) (n : String) (v : α) :
    PatchRecord α × Container α :=
  (⟨n, getattrC c n⟩, setattrC c n v)

/-- Modelled from the spec: `restore()` writes the original value back when
`hadOriginalValue`, and removes the attribute entirely otherwise. -/
def restorePatch {α : Type} (c : Container α) (r : PatchRecord α) : Container α :=
  match r.original with
  | some v0 => setattrC c r.attributeName v0
  | none => delattrC c r.attributeName

/-- How the protected region of a patch scope exits: normally with a value,
or by raising an error. -/
inductive Outcome (β : Type) where
  | normal (val : β)
  | raised (err : String)
deriving DecidableEq

/-- Modelled from the spec: a `PatchScope` orchestrates apply → run the
protected region → unconditional restore; the restore runs whatever the
outcome of the body (normal exit or raised error). -/
def runScope {α β : Type} (c : Container α) (n : String) (v : α)
    (body : Container α → Outcome β × Container α) : Outcome β × Container α :=
  let rc := applyPatch c n v
  let bo := body rc.2
  (bo.1, restorePatch bo.2 rc.1)

theorem getattrC_setattrC_self {α : Type} (c : Container α) (n : String) (v : α) :
    getattrC (setattrC c n v) n = some v := by
  simp [getattrC, setattrC]

theorem getattrC_setattrC_other {α : Type} (c : Container α) (n m : String) (v : α)
    (h : m ≠ n) : getattrC (setattrC c n v) m = getattrC c m := by
  simp [getattrC, setattrC, h]

/-- Restoring from the record taken by `applyPatch` puts the patched
attribute back to its pre-patch state, whatever the container looks like at
restore time. -/
theorem getattrC_restore_apply {α : Type} (c c2 : Container α) (n : String) (v : α) :
    getattrC (restorePatch c2 (applyPatch c n v).1) n = getattrC c n := by
  unfold restorePatch applyPatch
  cases h : getattrC c n with
  | none => simp [h, getattrC, delattrC]
  | some v0 => simp [h, getattrC, setattrC]

/-- Restoring touches no attribute other than the patched one. -/
theorem getattrC_restore_other {α : Type} (c2 : Container α) (r : PatchRecord α)
    (m : String) (h : m ≠ r.attributeName) :
    getattrC (restorePatch c2 r) m = getattrC c2 m := by
  unfold restorePatch
  cases r.original with
  | none => simp [getattrC, delattrC, h]
  | some v0 => simp [getattrC, setattrC, h]

/-- C1: if attribute `n` of container `c` holds `v0` before patching, then
(i) inside the scope reads return the patched value `v1`; (ii) after the
scope exits — for every body whatsoever, so in particular for a body that
exits normally and for one that raises — the restore leaves `c.n` equal to
`v0`; (iii) a nested patch stack (patch `n` with `v1`, then `n2` with `v2`),
restored innermost first, leaves both `n` and `n2` at their pre-patch
values. -/
theorem patch_restore_all_exit_paths {α β : Type} (c : Container α) (n : String)
    (v0 v1 : α) (body : Container α → Outcome β × Container α)
    (h : getattrC c n = some v0) :
    getattrC (applyPatch c n v1).2 n = some v1 ∧
    getattrC (runScope c n v1 body).2 n = some v0 ∧
    (∀ (n2 : String) (v2 : α),
      getattrC (restorePatch
        (restorePatch (applyPatch (applyPatch c n v1).2 n2 v2).2
          (applyPatch (applyPatch c n v1).2 n2 v2).1)
        (applyPatch c n v1).1) n = some v0 ∧
      getattrC (restorePatch
        (restorePatch (applyPatch (applyPatch c n v1).2 n2 v2).2
          (applyPatch (applyPatch c n v1).2 n2 v2).1)
        (applyPatch c n v1).1) n2 = getattrC c n2) := by
  refine ⟨getattrC_setattrC_self c n v1, ?_, ?_⟩
  · show getattrC (restorePatch (body (applyPatch c n v1).2).2 (applyPatch c n v1).1) n
      = some v0
    rw [getattrC_restore_apply, h]
  · intro n2 v2
    constructor
    · rw [getattrC_restore_apply c _ n v1, h]
    · by_cases hn : n2 = n
      · subst hn
        rw [getattrC_restore_apply c _ n2 v1]
      · rw [getattrC_restore_other _ _ _ hn,
          getattrC_restore_apply (applyPatch c n v1).2 _ n2 v2]
        exact getattrC_setattrC_other c n n2 v1 hn

/-- An example container with a single attribute `attr` holding `1`
(the shape of `MyClass(DEFAULT_VALUE)` in `src/tests.py`). -/
def containerEx : Container Int := fun m => if m = "attr" then some 1 else none

/-- A protected region that raises, to exercise the error exit path. -/
def raisingBody : Container Int → Outcome Int × Container Int :=
  fun c => (Outcome.raised "RuntimeError", c)

theorem patch_restore_all_exit_paths_witness :
    getattrC containerEx "attr" = some 1 ∧
    getattrC (applyPatch containerEx "attr" (42 : Int)).2 "attr" = some 42 ∧
    getattrC (runScope containerEx "attr" (42 : Int) raisingBody).2 "attr" = some 1 ∧
    getattrC (restorePatch
      (restorePatch (applyPatch (applyPatch containerEx "attr" (42 : Int)).2 "attr" 7).2
        (applyPatch (applyPatch containerEx "attr" (42 : Int)).2 "attr" 7).1)
      (applyPatch containerEx "attr" (42 : Int)).1) "attr" = some 1 :=
  ⟨by decide,
    (patch_restore_all_exit_paths containerEx "attr" 1 42 raisingBody (by decide)).1,
    (patch_restore_all_exit_paths containerEx "attr" 1 42 raisingBody (by decide)).2.1,
    ((patch_restore_all_exit_paths containerEx "attr" 1 42 raisingBody
      (by decide)).2.2 "attr" 7).1⟩

/-- C9: if attribute `n` does not exist on container `c` before patching,
then `apply` records that there was no original value, and after
`apply(); restore()` the attribute is absent again — indeed the whole
container is back to its pre-patch state. -/
theorem patch_absent_attribute {α : Type} (c : Container α) (n : String) (v : α)
    (h : getattrC c n = none) :
    (applyPatch c n v).1.hadOriginalValue = false ∧
    getattrC (restorePatch (applyPatch c n v).2 (applyPatch c n v).1) n = none ∧
    (∀ m, getattrC (restorePatch (applyPatch c n v).2 (applyPatch c n v).1) m
      = getattrC c m) := by
  refine ⟨?_, ?_, ?_⟩
  · simp [applyPatch, PatchRecord.hadOriginalValue, h]
  · rw [getattrC_restore_apply, h]
  · intro m
    by_cases hm : m = n
    · subst hm; rw [getattrC_restore_apply]
    · rw [getattrC_restore_other _ _ _ hm]
      exact getattrC_setattrC_other c n m v hm

/-- An empty container, with no attributes at all. -/
def emptyContainerEx : Container Int := fun _ => none

theorem patch_absent_attribute_witness :
    getattrC emptyContainerEx "attr" = none ∧
    (applyPatch emptyContainerEx "attr" (5 : Int)).1.hadOriginalValue = false ∧
    getattrC (restorePatch (applyPatch emptyContainerEx "attr" (5 : Int)).2
      (applyPatch emptyContainerEx "attr" (5 : Int)).1) "attr" = none :=
  ⟨rfl,
    (patch_absent_attribute emptyContainerEx "attr" 5 rfl).1,
    (patch_absent_attribute emptyContainerEx "attr" 5 rfl).2.1⟩

/-! ### Python instances, descriptors and `MyClass` (src/mypackage/c.py) -/

/-- A plain Python value, as far as the repository's tests need one:
integers and strings. -/
inductive PyVal where
  | int (n : Int)
  | str (s : String)
deriving DecidableEq

/-- A Python instance: its `__dict__`, a partial map from attribute names to
values. -/
structure PyInst where
  dict : String → Option PyVal

/-- An entry of a class dictionary: a plain value, a function (a non-data
descriptor, shadowed by the instance dict and bound on access), or a
property (a data descriptor) with a getter and an optional setter. -/
inductive PyClassAttr where
  | plain (v : PyVal)
  | func (f : PyInst → Option PyVal)
  | prop (get : PyInst → Option PyVal) (set : Option (PyInst → PyVal → PyInst))

/-- A class seen as its dictionary of attribute entries. -/
def ClassDict : Type := String → Option PyClassAttr

/-- Python errors the embedded fragment can raise. -/
inductive PyError where
  | attributeError (msg : String)
deriving DecidableEq

/-- Value read on an instance, following Python's lookup order: a data
descriptor on the class wins over the instance dict; the instance dict wins
over a plain class value; reading a method name as a value yields the bound
method (not a `PyVal`), modelled here as the instance-dict result. -/
def instGetattr (cls : ClassDict) (self : PyInst) (n : String) : Option PyVal :=
  match cls n with
  | some (PyClassAttr.prop g _) => g self
  | some (PyClassAttr.plain v) =>
      match self.dict n with
      | some iv => some iv
      | none => some v
  | some (PyClassAttr.func _) => self.dict n
  | none => self.dict n

/-- Attribute write on an instance: a property with a setter routes through
the setter; a property without a setter raises `AttributeError: can't set
attribute` before any state is mutated; otherwise the instance dict is
written. -/
def instSetattr (cls : ClassDict) (self : PyInst) (n : String) (v : PyVal) :
    Except PyError PyInst :=
  match cls n with
  | some (PyClassAttr.prop _ (some s)) => Except.ok (s self v)
  | some (PyClassAttr.prop _ none) =>
      Except.error (PyError.attributeError "cannot set attribute")
  | _ => Except.ok ⟨fun m => if m = n then some v else self.dict m⟩

/-- Modelled from the spec: a patch record for a class-level substitution,
holding the original class-dict entry (possibly a descriptor). -/
structure ClassPatchRecord where
  attributeName : String
  original : Option PyClassAttr

/-- Modelled from the spec: applying a patch at the class level replaces the
class-dict entry (descriptor included) with a plain value; this always
succeeds. -/
def classApplyPatch (cls : ClassDict) (n : String) (v : PyVal) :
    ClassPatchRecord × ClassDict :=
  (⟨n, cls n⟩, fun m => if m = n then some (PyClassAttr.plain v) else cls m)

/-- Modelled from the spec: restoring a class-level patch writes the
original entry (descriptor included) back, or removes the entry if there was
none. -/
def classRestorePatch (cls : ClassDict) (r : ClassPatchRecord) : ClassDict :=
  match r.original with
  | some d => fun m => if m = r.attributeName then some d else cls m
  | none => fun m => if m = r.attributeName then none else cls m

namespace MyClass

/-- Constructor `MyClass.__init__(self, val)`: stores `val` in `self._val`. -/
def init (v : PyVal) : PyInst :=
  ⟨fun n => if n = "_val" then some v else none⟩

/-- Method `MyClass.foo(self)`: returns `self._val`. -/
def foo (self : PyInst) : Option PyVal := self.dict "_val"

/-- Getter of the `read_only_prop` property: returns `self._val`. -/
def readOnlyPropGet (self : PyInst) : Option PyVal := self.dict "_val"

/-- Getter of the `writeable_prop` property: returns `self._val`. -/
def writeablePropGet (self : PyInst) : Option PyVal := self.dict "_val"

/-- Setter of the `writeable_prop` property: sets `self._val`. -/
def writeablePropSet (self : PyInst) (v : PyVal) : PyInst :=
  ⟨fun n => if n = "_val" then some v else self.dict n⟩

/-- Deleter of the `writeable_prop` property: deletes `self._val`. -/
def writeablePropDel (self : PyInst) : PyInst :=
  ⟨fun n => if n = "_val" then none else self.dict n⟩

/-- The class dictionary of `MyClass`: `foo` is a plain function,
`read_only_prop` a property with no setter, `writeable_prop` a property with
both getter and setter. -/
def classDict : ClassDict := fun n =>
  if n = "foo" then some (PyClassAttr.func foo)
  else if n = "read_only_prop" then some (PyClassAttr.prop readOnlyPropGet none)
  else if n = "writeable_prop" then
    some (PyClassAttr.prop writeablePropGet (some writeablePropSet))
  else none

end MyClass

/-- Calling method `n` on `self`: the attribute lookup yields a bound method
when the class dict holds a function for `n` not shadowed by the instance
dict; the call then runs that function on `self`. -/
def callMethod (cls : ClassDict) (self : PyInst) (n : String) : Option PyVal :=
  match self.dict n with
  | some _ => none
  | none =>
      match cls n with
      | some (PyClassAttr.func f) => f self
      | _ => none

/-- C8: patching `read_only_prop` — a property with no setter — at the
instance level fails with a cannot-set-attribute error and the failing
`setattr` yields no mutated instance, so instance reads still see the
original value; the same substitution at the class level succeeds by
replacing the descriptor with a plain value, after which instance reads
return that plain value, and once the class-level patch is restored the
descriptor is back and reads go through the getter again. -/
theorem readonly_prop_patch (v w : PyVal) :
    instSetattr MyClass.classDict (MyClass.init v) "read_only_prop" w
      = Except.error (PyError.attributeError "cannot set attribute") ∧
    instGetattr MyClass.classDict (MyClass.init v) "read_only_prop" = some v ∧
    instGetattr (classApplyPatch MyClass.classDict "read_only_prop" w).2
      (MyClass.init v) "read_only_prop" = some w ∧
    instGetattr
      (classRestorePatch (classApplyPatch MyClass.classDict "read_only_prop" w).2
        (classApplyPatch MyClass.classDict "read_only_prop" w).1)
      (MyClass.init v) "read_only_prop" = some v := by
  refine ⟨?_, ?_, ?_, ?_⟩ <;>
    simp [instSetattr, instGetattr, MyClass.classDict, MyClass.init,
      MyClass.readOnlyPropGet, classApplyPatch, classRestorePatch]

/-- C10: `foo()`, `read_only_prop` and `writeable_prop` all read the single
stored field `_val`: on an instance constructed with `v` all three return
`v`; assigning `writeable_prop := w` routes through the property's setter
(the only mutating operation) and updates `_val`, after which all three
return `w`; and on any instance state whose dict does not shadow `foo`, the
three reads are equal to each other and to `_val` — they can never
disagree. -/
theorem myclass_single_field_invariant (v w : PyVal) (self : PyInst)
    (hself : self.dict "foo" = none) :
    callMethod MyClass.classDict (MyClass.init v) "foo" = some v ∧
    instGetattr MyClass.classDict (MyClass.init v) "read_only_prop" = some v ∧
    instGetattr MyClass.classDict (MyClass.init v) "writeable_prop" = some v ∧
    instSetattr MyClass.classDict (MyClass.init v) "writeable_prop" w
      = Except.ok (MyClass.writeablePropSet (MyClass.init v) w) ∧
    callMethod MyClass.classDict (MyClass.writeablePropSet (MyClass.init v) w) "foo"
      = some w ∧
    instGetattr MyClass.classDict (MyClass.writeablePropSet (MyClass.init v) w)
      "read_only_prop" = some w ∧
    instGetattr MyClass.classDict (MyClass.writeablePropSet (MyClass.init v) w)
      "writeable_prop" = some w ∧
    callMethod MyClass.classDict self "foo"
      = instGetattr MyClass.classDict self "read_only_prop" ∧
    instGetattr MyClass.classDict self "read_only_prop"
      = instGetattr MyClass.classDict self "writeable_prop" ∧
    callMethod MyClass.classDict self "foo" = self.dict "_val" := by
  refine ⟨?_, ?_, ?_, ?_, ?_, ?_, ?_, ?_, ?_, ?_⟩ <;>
    simp [callMethod, instGetattr, instSetattr, MyClass.classDict, MyClass.init,
      MyClass.foo, MyClass.readOnlyPropGet, MyClass.writeablePropGet,
      MyClass.writeablePropSet, hself]

theorem myclass_single_field_invariant_witness :
    (MyClass.init (PyVal.int 3)).dict "foo" = none ∧
    callMethod MyClass.classDict (MyClass.init (PyVal.int 1)) "foo"
      = some (PyVal.int 1) ∧
    instGetattr MyClass.classDict
      (MyClass.writeablePropSet (MyClass.init (PyVal.int 1)) (PyVal.int 2))
      "read_only_prop" = some (PyVal.int 2) :=
  ⟨by simp [MyClass.init],
    (myclass_single_field_invariant (PyVal.int 1) (PyVal.int 2)
      (MyClass.init (PyVal.int 3)) (by simp [MyClass.init])).1,
    (myclass_single_field_invariant (PyVal.int 1) (PyVal.int 2)
      (MyClass.init (PyVal.int 3)) (by simp [MyClass.init])).2.2.2.2.2.1⟩

/-! ### Module bindings (src/mypackage/a.py, src/mypackage/b.py) -/

/-- A function value bound to a module-level name: either the
`query_database` function object defined in `mypackage/a.py`, or a
`MagicMock` configured with a fixed return value. -/
inductive FnVal where
  | origQueryDatabase
  | mockReturning (v : Int)
deriving DecidableEq

/-- The module-level bindings of `mypackage.a` that the tests exercise. -/
structure ModuleA where
  A_MODULE_VAR : Int
  A_DERIVED_MODULE_VAR : Int
  QUERY_DATABASE_DEFAULT_VALUE : Int
  query_database : FnVal
deriving DecidableEq

/-- The module-level bindings of `mypackage.b`: the two names created by
`from mypackage.a import query_database` (plain and
`as query_database_alternate_name`) are separate binding slots of module
`b`. -/
structure ModuleB where
  query_database : FnVal
  query_database_alternate_name : FnVal
deriving DecidableEq

/-- The loaded-modules state the patched program runs in. -/
structure PyModules where
  a : ModuleA
  b : ModuleB
deriving DecidableEq

/-- Calling a bound function value: the original `query_database` returns
`mypackage.a.QUERY_DATABASE_DEFAULT_VALUE`, read from module `a` at call
time; a configured mock returns its fixed value. -/
def callFn (st : PyModules) : FnVal → Int
  | FnVal.origQueryDatabase => st.a.QUERY_DATABASE_DEFAULT_VALUE
  | FnVal.mockReturning v => v

/-- Executing `mypackage/a.py` at import time: `A_MODULE_VAR = 42`,
`A_DERIVED_MODULE_VAR = A_MODULE_VAR * 2` (computed once, at definition
time), `QUERY_DATABASE_DEFAULT_VALUE = 1000000`, and the definition of
`query_database`. -/
def importA : ModuleA :=
  let a_module_var : Int := 42
  { A_MODULE_VAR := a_module_var
    A_DERIVED_MODULE_VAR := a_module_var * 2
    QUERY_DATABASE_DEFAULT_VALUE := 1000000
    query_database := FnVal.origQueryDatabase }

/-- Executing `mypackage/b.py` at import time: both `from mypackage.a
import` statements copy module `a`'s current `query_database` binding into
fresh slots of module `b`. -/
def importB (a : ModuleA) : ModuleB :=
  { query_database := a.query_database
    query_database_alternate_name := a.query_database }

/-- The modules as loaded by `src/tests.py`. -/
def initModules : PyModules := { a := importA, b := importB importA }

/-- Function `mypackage.b.triple_database`: calls the name `query_database` as bound
in module `b`. -/
def triple_database (st : PyModules) : Int :=
  callFn st st.b.query_database * 3

/-- Function `mypackage.b.triple_database_direct_call`: calls
`mypackage.a.query_database`, resolved through module `a` at call time. -/
def triple_database_direct_call (st : PyModules) : Int :=
  callFn st st.a.query_database * 3

/-- Function `mypackage.b.triple_database_alternate_name`: calls the name
`query_database_alternate_name` as bound in module `b`. -/
def triple_database_alternate_name (st : PyModules) : Int :=
  callFn st st.b.query_database_alternate_name * 3

/-- Function `mypackage.b.triple_database_local_import`: runs
`from mypackage.a import query_database` in its own body, so it reads
module `a`'s current binding at call time. -/
def triple_database_local_import (st : PyModules) : Int :=
  callFn st st.a.query_database * 3

/-- Modelled from the spec: `patch("mypackage.b.query_database", m)`
resolves the dotted path to module `b` at apply time and replaces exactly
the binding `query_database` there. -/
def patchBQueryDatabase (st : PyModules) (m : FnVal) : PyModules :=
  { st with b := { st.b with query_database := m } }

/-- Modelled from the spec: `patch("mypackage.a.A_MODULE_VAR", v)` replaces
exactly that binding of module `a`. -/
def patchAModuleVar (st : PyModules) (v : Int) : PyModules :=
  { st with a := { st.a with A_MODULE_VAR := v } }

/-- C2: patching one binding leaves every other binding to the same
underlying value unchanged; concretely, while `mypackage.b.query_database`
is patched with a mock returning `PATCHED_VALUE = 42`,
`mypackage.a.query_database` and `mypackage.b.query_database_alternate_name`
still hold the original function, so `triple_database` returns `42 * 3`
while the direct-call, alternate-name and local-import variants still
return `1000000 * 3`; and patching `mypackage.a.A_MODULE_VAR` does not
change `A_DERIVED_MODULE_VAR`, which keeps the value `84` computed at
definition time. -/
theorem patch_where_it_is_looked_up :
    (∀ (st : PyModules) (m : FnVal),
      (patchBQueryDatabase st m).a.query_database = st.a.query_database ∧
      (patchBQueryDatabase st m).b.query_database_alternate_name
        = st.b.query_database_alternate_name) ∧
    (∀ (st : PyModules) (v : Int),
      (patchAModuleVar st v).a.A_DERIVED_MODULE_VAR
        = st.a.A_DERIVED_MODULE_VAR) ∧
    (patchBQueryDatabase initModules (FnVal.mockReturning 42)).a.query_database
      = FnVal.origQueryDatabase ∧
    (patchBQueryDatabase initModules
      (FnVal.mockReturning 42)).b.query_database_alternate_name
      = FnVal.origQueryDatabase ∧
    triple_database (patchBQueryDatabase initModules (FnVal.mockReturning 42))
      = 42 * 3 ∧
    triple_database_direct_call
      (patchBQueryDatabase initModules (FnVal.mockReturning 42)) = 1000000 * 3 ∧
    triple_database_alternate_name
      (patchBQueryDatabase initModules (FnVal.mockReturning 42)) = 1000000 * 3 ∧
    triple_database_local_import
      (patchBQueryDatabase initModules (FnVal.mockReturning 42)) = 1000000 * 3 ∧
    (patchAModuleVar initModules 777).a.A_DERIVED_MODULE_VAR = 84 :=
  ⟨fun _ _ => ⟨rfl, rfl⟩, fun _ _ => rfl, rfl, rfl, by decide, by decide,
    by decide, by decide, by decide⟩

/-! ### The Mock child-attribute tree -/

/-- Modelled from the spec: the global state of a family of Mock objects
(the engine's `Mock` class is not under `src/`).  Each mock is an opaque
identity (a natural number); `children` is the lazily populated table
associating `(parent identity, attribute name)` with the child identity
created on first access; `nextId` is the next fresh identity. -/
structure MockState where
  nextId : Nat
  children : List ((Nat × String) × Nat)
deriving DecidableEq

/-- Look up the cached child of mock `m` under attribute name `a`. -/
def findChild : List ((Nat × String) × Nat) → Nat → String → Option Nat
  | [], _, _ => none
  | (k, c) :: rest, m, a => if k = (m, a) then some c else findChild rest m a

/-- Modelled from the spec: `getAttribute(name)` on mock `m` returns the
cached child if `name` has been accessed before, and otherwise synthesizes a
fresh mock, caches it and returns it. -/
def getAttribute (s : MockState) (m : Nat) (a : String) : Nat × MockState :=
  match findChild s.children m a with
  | some c => (c, s)
  | none => (s.nextId, ⟨s.nextId + 1, ((m, a), s.nextId) :: s.children⟩)

/-- The state right after `Mock()`: the root mock has identity `0`, no
children exist yet. -/
def freshMock : MockState := ⟨1, []⟩

/-- Well-formedness of the child table: every cached identity is below the
bound, and each entry's key and child identity appear nowhere later in the
table. -/
def wfChildren : List ((Nat × String) × Nat) → Nat → Bool
  | [], _ => true
  | (k, c) :: rest, bound =>
      decide (c < bound)
        && rest.all (fun e => decide (e.1 ≠ k) && decide (e.2 ≠ c))
        && wfChildren rest bound

/-- A mock state is well formed when its child table is, with `nextId` as
the bound. -/
def MockState.wf (s : MockState) : Bool := wfChildren s.children s.nextId

theorem findChild_cons_self {l : List ((Nat × String) × Nat)} {m : Nat}
    {a : String} {c : Nat} : findChild (((m, a), c) :: l) m a = some c := by
  simp [findChild]

theorem findChild_cons_ne {l : List ((Nat × String) × Nat)} {k : Nat × String}
    {c m : Nat} {a : String} (h : k ≠ (m, a)) :
    findChild ((k, c) :: l) m a = findChild l m a := by
  simp [findChild, h]

theorem findChild_mem {l : List ((Nat × String) × Nat)} {m : Nat} {a : String}
    {c : Nat} (h : findChild l m a = some c) : ((m, a), c) ∈ l := by
  induction l with
  | nil => simp [findChild] at h
  | cons e rest ih =>
      obtain ⟨k, c0⟩ := e
      by_cases hk : k = (m, a)
      · subst hk
        rw [findChild_cons_self] at h
        obtain rfl := Option.some.inj h
        exact List.mem_cons_self _ _
      · rw [findChild_cons_ne hk] at h
        exact List.mem_cons_of_mem _ (ih h)

theorem findChild_none_key {l : List ((Nat × String) × Nat)} {m : Nat} {a : String}
    (h : findChild l m a = none) : ∀ e ∈ l, e.1 ≠ (m, a) := by
  induction l with
  | nil => intro e he; simp at he
  | cons e0 rest ih =>
      obtain ⟨k, c0⟩ := e0
      by_cases hk : k = (m, a)
      · subst hk
        rw [findChild_cons_self] at h
        simp at h
      · rw [findChild_cons_ne hk] at h
        intro e he
        rcases List.mem_cons.mp he with h1 | h2
        · subst h1; exact hk
        · exact ih h e h2

theorem wfChildren_val_lt {l : List ((Nat × String) × Nat)} {bound : Nat}
    (h : wfChildren l bound = true) : ∀ e ∈ l, e.2 < bound := by
  induction l with
  | nil => intro e he; simp at he
  | cons e0 rest ih =>
      obtain ⟨k, c0⟩ := e0
      simp only [wfChildren, Bool.and_eq_true, decide_eq_true_eq,
        List.all_eq_true] at h
      intro e he
      rcases List.mem_cons.mp he with h1 | h2
      · subst h1; exact h.1.1
      · exact ih h.2 e h2

theorem wfChildren_mono {l : List ((Nat × String) × Nat)} {b1 b2 : Nat}
    (h : wfChildren l b1 = true) (hle : b1 ≤ b2) : wfChildren l b2 = true := by
  induction l with
  | nil => simp [wfChildren]
  | cons e0 rest ih =>
      obtain ⟨k, c0⟩ := e0
      simp only [wfChildren, Bool.and_eq_true, decide_eq_true_eq,
        List.all_eq_true] at h ⊢
      exact ⟨⟨lt_of_lt_of_le h.1.1 hle, h.1.2⟩, ih h.2⟩

theorem findChild_lt {l : List ((Nat × String) × Nat)} {bound m : Nat} {a : String}
    {c : Nat} (hwf : wfChildren l bound = true) (h : findChild l m a = some c) :
    c < bound :=
  wfChildren_val_lt hwf _ (findChild_mem h)

theorem findChild_distinct {l : List ((Nat × String) × Nat)} {bound m : Nat}
    {a b : String} {ca cb : Nat} (hwf : wfChildren l bound = true) (hab : a ≠ b)
    (ha : findChild l m a = some ca) (hb : findChild l m b = some cb) :
    ca ≠ cb := by
  induction l with
  | nil => simp [findChild] at ha
  | cons e0 rest ih =>
      obtain ⟨k, c0⟩ := e0
      simp only [wfChildren, Bool.and_eq_true, decide_eq_true_eq,
        List.all_eq_true] at hwf
      obtain ⟨⟨hlt, hfresh⟩, hrest⟩ := hwf
      by_cases hka : k = (m, a)
      · subst hka
        rw [findChild_cons_self] at ha
        obtain rfl := Option.some.inj ha
        have hkb : ((m, a) : Nat × String) ≠ (m, b) := by simp [hab]
        rw [findChild_cons_ne hkb] at hb
        have hne : cb ≠ c0 := (hfresh _ (findChild_mem hb)).2
        exact fun hh => hne hh.symm
      · rw [findChild_cons_ne hka] at ha
        by_cases hkb : k = (m, b)
        · subst hkb
          rw [findChild_cons_self] at hb
          obtain rfl := Option.some.inj hb
          exact (hfresh _ (findChild_mem ha)).2
        · rw [findChild_cons_ne hkb] at hb
          exact ih hrest ha hb

theorem wfChildren_insert {l : List ((Nat × String) × Nat)} {bound m : Nat}
    {a : String} (hwf : wfChildren l bound = true)
    (hnone : findChild l m a = none) :
    wfChildren (((m, a), bound) :: l) (bound + 1) = true := by
  simp only [wfChildren, Bool.and_eq_true, decide_eq_true_eq, List.all_eq_true]
  refine ⟨⟨Nat.lt_succ_self bound, ?_⟩, wfChildren_mono hwf (Nat.le_succ bound)⟩
  intro e he
  exact ⟨findChild_none_key hnone e he,
    Nat.ne_of_lt (wfChildren_val_lt hwf e he)⟩

/-- C3: on a well-formed mock state, repeated accesses `m.a` yield the same
child mock and the same state, accessing a distinct name `b` after `a`
yields a different child, and the access preserves well-formedness (so the
invariant holds at every reachable mock). -/
theorem mock_child_attribute_identity (s : MockState) (m : Nat) (a b : String)
    (hwf : s.wf = true) (hab : a ≠ b) :
    getAttribute (getAttribute s m a).2 m a = getAttribute s m a ∧
    (getAttribute (getAttribute s m a).2 m b).1 ≠ (getAttribute s m a).1 ∧
    ((getAttribute s m a).2).wf = true := by
  refine ⟨?_, ?_, ?_⟩
  · cases h : findChild s.children m a with
    | some c => simp only [getAttribute, h]
    | none =>
        simp only [getAttribute, h]
        rw [findChild_cons_self]
  · cases h : findChild s.children m a with
    | some ca =>
        simp only [getAttribute, h]
        cases hb : findChild s.children m b with
        | some cb =>
            simp only [hb]
            exact (findChild_distinct hwf hab h hb).symm
        | none =>
            simp only [hb]
            exact Nat.ne_of_gt (findChild_lt hwf h)
    | none =>
        have hkb : ((m, a) : Nat × String) ≠ (m, b) := by simp [hab]
        simp only [getAttribute, h]
        rw [findChild_cons_ne hkb]
        cases hb : findChild s.children m b with
        | some cb =>
            simp only [hb]
            exact Nat.ne_of_lt (findChild_lt hwf hb)
        | none =>
            simp only [hb]
            omega
  · cases h : findChild s.children m a with
    | some c => simpa only [getAttribute, h] using hwf
    | none =>
        simp only [getAttribute, h, MockState.wf]
        exact wfChildren_insert hwf h

theorem mock_child_attribute_identity_witness :
    freshMock.wf = true ∧ ("abcd" : String) ≠ "efgh" ∧
    getAttribute (getAttribute freshMock 0 "abcd").2 0 "abcd"
      = getAttribute freshMock 0 "abcd" ∧
    (getAttribute (getAttribute freshMock 0 "abcd").2 0 "efgh").1
      ≠ (getAttribute freshMock 0 "abcd").1 :=
  ⟨by decide, by decide,
    (mock_child_attribute_identity freshMock 0 "abcd" "efgh" (by decide)
      (by decide)).1,
    (mock_child_attribute_identity freshMock 0 "abcd" "efgh" (by decide)
      (by decide)).2.1⟩

/-! ### The side-effect engine -/

/-- The exception types the tests configure as side effects: `MyException`
(whose constructor requires a `detail` argument) and `KeyError`. -/
inductive ExcTy where
  | myException
  | keyError
deriving DecidableEq

/-- Exception values raised by the engine. -/
inductive ExcVal where
  | myException (detail : String)
  | keyError
  | typeError (msg : String)
  | stopIteration
deriving DecidableEq

/-- Instantiating an exception type with no arguments, as the engine does:
`MyException()` fails with a `TypeError` because its constructor takes a
`detail` argument; `KeyError()` succeeds. -/
def constructNoArg : ExcTy → Except ExcVal ExcVal
  | ExcTy.myException =>
      Except.error (ExcVal.typeError "takes exactly 2 arguments (1 given)")
  | ExcTy.keyError => Except.ok ExcVal.keyError

/-- The observable result of one mock invocation. -/
inductive InvokeResult where
  | returns (v : PyVal)
  | raises (e : ExcVal)
deriving DecidableEq

/-- A configured side effect, in the spec's four forms: an exception
instance, an exception type, a finite sequence, or a callable. -/
inductive SideEffect where
  | excInstance (e : ExcVal)
  | excType (t : ExcTy)
  | iterable (l : List PyVal)
  | callable (f : List PyVal → InvokeResult)

/-- The engine's per-mock mutable state: the elements of a finite-sequence
side effect not yet consumed. -/
def remainingOf : SideEffect → List PyVal
  | SideEffect.iterable l => l
  | _ => []

/-- Modelled from the spec: resolving a configured side effect for one
invocation (the engine is not under `src/`).  An exception instance is
raised unchanged on every invocation; an exception type is instantiated
with no arguments and the instance raised, a construction failure surfacing
instead of the configured exception; a finite sequence yields its next
element, or raises `StopIteration` once exhausted; a callable is invoked
with the mock's arguments. -/
def invokeSideEffect (cfg : SideEffect) (args remaining : List PyVal) :
    InvokeResult × List PyVal :=
  match cfg with
  | SideEffect.excInstance e => (InvokeResult.raises e, remaining)
  | SideEffect.excType t =>
      match constructNoArg t with
      | Except.ok e => (InvokeResult.raises e, remaining)
      | Except.error te => (InvokeResult.raises te, remaining)
  | SideEffect.iterable _ =>
      match remaining with
      | [] => (InvokeResult.raises ExcVal.stopIteration, [])
      | v :: rest => (InvokeResult.returns v, rest)
  | SideEffect.callable f => (f args, remaining)

/-- The sequence elements left after `k` successive invocations of a mock
whose side effect is the finite sequence `l`. -/
def remainingAfter (l : List PyVal) : Nat → List PyVal
  | 0 => remainingOf (SideEffect.iterable l)
  | k + 1 => (invokeSideEffect (SideEffect.iterable l) [] (remainingAfter l k)).2

/-- The result of the `k`-th invocation (0-based) of such a mock. -/
def nthInvoke (l : List PyVal) (k : Nat) : InvokeResult :=
  (invokeSideEffect (SideEffect.iterable l) [] (remainingAfter l k)).1

theorem remainingAfter_eq_drop (l : List PyVal) (k : Nat) :
    remainingAfter l k = l.drop k := by
  induction k with
  | zero => rfl
  | succ k ih =>
      rw [remainingAfter, ih]
      cases h : l.drop k with
      | nil =>
          simp only [invokeSideEffect]
          rw [← List.tail_drop, h]
          rfl
      | cons v rest =>
          simp only [invokeSideEffect]
          rw [← List.tail_drop, h]
          rfl

/-- C4: a mock whose side effect is the finite sequence `l` returns the
elements of `l` in order — the `k`-th invocation, for `k < l.length`,
returns `l[k]` — and the invocation after the `l.length` successful ones
raises `StopIteration` instead of returning a value. -/
theorem side_effect_finite_sequence (l : List PyVal) (k : Nat)
    (hk : k < l.length) :
    nthInvoke l k = InvokeResult.returns (l.get ⟨k, hk⟩) ∧
    nthInvoke l l.length = InvokeResult.raises ExcVal.stopIteration := by
  constructor
  · rw [nthInvoke, remainingAfter_eq_drop, List.drop_eq_getElem_cons hk]
    rfl
  · rw [nthInvoke, remainingAfter_eq_drop, List.drop_length]
    rfl

theorem side_effect_finite_sequence_witness :
    (2 : Nat) <
      ([PyVal.int 0, PyVal.int 1, PyVal.int 2, PyVal.int 3] : List PyVal).length ∧
    nthInvoke [PyVal.int 0, PyVal.int 1, PyVal.int 2, PyVal.int 3] 2
      = InvokeResult.returns (PyVal.int 2) ∧
    nthInvoke [PyVal.int 0, PyVal.int 1, PyVal.int 2, PyVal.int 3] 4
      = InvokeResult.raises ExcVal.stopIteration :=
  ⟨by decide,
    (side_effect_finite_sequence
      [PyVal.int 0, PyVal.int 1, PyVal.int 2, PyVal.int 3] 2 (by decide)).1,
    (side_effect_finite_sequence
      [PyVal.int 0, PyVal.int 1, PyVal.int 2, PyVal.int 3] 2 (by decide)).2⟩

/-- C5: when the configured side effect is an exception instance, every
invocation raises exactly that instance (whatever the arguments and
whatever the sequence state); when it is an exception type, the type is
instantiated with no arguments and the instance raised — `KeyError` raises
a `KeyError`, while `MyException`, whose constructor requires a `detail`
argument, surfaces the construction `TypeError` rather than the configured
exception. -/
theorem side_effect_exception (e : ExcVal) (args rem : List PyVal) :
    invokeSideEffect (SideEffect.excInstance e) args rem
      = (InvokeResult.raises e, rem) ∧
    invokeSideEffect (SideEffect.excType ExcTy.keyError) args rem
      = (InvokeResult.raises ExcVal.keyError, rem) ∧
    invokeSideEffect (SideEffect.excType ExcTy.myException) args rem
      = (InvokeResult.raises
          (ExcVal.typeError "takes exactly 2 arguments (1 given)"), rem) :=
  ⟨rfl, rfl, rfl⟩

/-! ### Call recording and the assertion helpers -/

/-- One recorded call: positional and keyword arguments, the shape of
`mock.call(...)`. -/
structure CallRecord where
  args : List PyVal
  kwargs : List (String × PyVal)
deriving DecidableEq

/-- Modelled from the spec: the call-tracking state of one mock —
`call_args` holds the most recent call, `call_args_list` the full ordered
history. -/
structure CallState where
  call_args : Option CallRecord
  call_args_list : List CallRecord
deriving DecidableEq

/-- The state of a mock that has never been called. -/
def CallState.fresh : CallState := ⟨none, []⟩

/-- Modelled from the spec: each invocation appends one `CallRecord` to the
history and makes it the most recent call. -/
def recordCall (s : CallState) (c : CallRecord) : CallState :=
  ⟨some c, s.call_args_list ++ [c]⟩

/-- Run a whole sequence of calls against a fresh mock. -/
def runCalls (cs : List CallRecord) : CallState :=
  cs.foldl recordCall CallState.fresh

/-- The most recent element of an ordered history. -/
def lastRecord : List CallRecord → Option CallRecord
  | [] => none
  | c :: rest => (lastRecord rest).or (some c)

/-- Modelled from the spec: `assert_called_with` succeeds iff the mock's
most recent call equals the given arguments. -/
def assert_called_with (s : CallState) (c : CallRecord) : Bool :=
  decide (s.call_args = some c)

theorem lastRecord_append (l : List CallRecord) (c : CallRecord) :
    lastRecord (l ++ [c]) = some c := by
  induction l with
  | nil => rfl
  | cons d rest ih => rw [List.cons_append, lastRecord, ih]; rfl

theorem runCalls_history (cs : List CallRecord) :
    (runCalls cs).call_args_list = cs := by
  suffices h : ∀ s : CallState,
      (cs.foldl recordCall s).call_args_list = s.call_args_list ++ cs by
    simpa using h CallState.fresh
  induction cs with
  | nil => intro s; simp
  | cons c rest ih =>
      intro s
      rw [List.foldl_cons, ih]
      simp [recordCall]

theorem runCalls_call_args (cs : List CallRecord) :
    (runCalls cs).call_args = lastRecord cs := by
  suffices h : ∀ s : CallState, s.call_args = lastRecord s.call_args_list →
      (cs.foldl recordCall s).call_args
        = lastRecord ((cs.foldl recordCall s).call_args_list) by
    rw [show (runCalls cs).call_args
        = lastRecord ((runCalls cs).call_args_list) from h CallState.fresh rfl,
      runCalls_history]
  induction cs with
  | nil => intro s hs; exact hs
  | cons c rest ih =>
      intro s hs
      rw [List.foldl_cons]
      exact ih _ (by simp [recordCall, lastRecord_append])

/-- The two calls `m(1)` and `m(2)` of `test_mock_asserts`. -/
def callOne : CallRecord := ⟨[PyVal.int 1], []⟩

/-- The second call of the scenario. -/
def callTwo : CallRecord := ⟨[PyVal.int 2], []⟩

/-- C6: `assert_called_with` succeeds iff the most recent record of the
mock's call history equals the given arguments: for every call sequence
`cs` run against a fresh mock, the check for `c` succeeds iff the last
element of the history is `c`; in particular after calls `(1)` then `(2)`,
asserting `(2)` succeeds and asserting `(1)` fails, even though `(1)` is
present earlier in the history. -/
theorem assert_called_with_most_recent :
    (∀ (cs : List CallRecord) (c : CallRecord),
      assert_called_with (runCalls cs) c = true ↔ lastRecord cs = some c) ∧
    assert_called_with (runCalls [callOne, callTwo]) callTwo = true ∧
    assert_called_with (runCalls [callOne, callTwo]) callOne = false ∧
    callOne ∈ (runCalls [callOne, callTwo]).call_args_list := by
  refine ⟨?_, ?_, ?_, ?_⟩
  · intro cs c
    rw [assert_called_with, runCalls_call_args]
    exact decide_eq_true_iff
  · decide
  · decide
  · decide

/-- Modelled from the spec: `expected` occurs as a possibly non-contiguous
subsequence of `history`, in the same relative order (greedy matching). -/
def subseqB : List CallRecord → List CallRecord → Bool
  | [], _ => true
  | _ :: _, [] => false
  | e :: es, h :: hs => if e = h then subseqB es hs else subseqB (e :: es) hs

/-- Modelled from the spec: order-independent containment — every expected
call's multiplicity is met somewhere in the history. -/
def multisetLe (expected history : List CallRecord) : Bool :=
  expected.all (fun c => decide (expected.count c ≤ history.count c))

/-- Modelled from the spec: `assert_has_calls(expected, anyOrder)`. -/
def assert_has_calls (s : CallState) (expected : List CallRecord)
    (anyOrder : Bool) : Bool :=
  if anyOrder then multisetLe expected s.call_args_list
  else subseqB expected s.call_args_list

theorem subseqB_iff_sublist (es hist : List CallRecord) :
    subseqB es hist = true ↔ es.Sublist hist := by
  induction hist generalizing es with
  | nil =>
      cases es with
      | nil => simp [subseqB]
      | cons e es' => simp [subseqB]
  | cons h hs ih =>
      cases es with
      | nil => simp [subseqB, List.nil_sublist]
      | cons e es' =>
          by_cases he : e = h
          · subst he
            rw [subseqB, if_pos rfl, ih es']
            exact (List.cons_sublist_cons).symm
          · rw [subseqB, if_neg he, ih]
            constructor
            · exact fun hsub => hsub.cons h
            · intro hsub
              cases hsub with
              | cons _ htail => exact htail
              | cons₂ _ _ => exact absurd rfl he

/-- C7: with `anyOrder = false`, `assert_has_calls` succeeds iff the
expected sequence occurs as a (possibly non-contiguous) subsequence of the
call history in the same relative order; so after calls `(1), (2)` the
expected sequence `[call(1), call(2)]` succeeds while `[call(2), call(1)]`
fails, and with `anyOrder = true` the check is order-independent and
`[call(2), call(1)]` succeeds. -/
theorem assert_has_calls_subsequence :
    (∀ es hist : List CallRecord,
      assert_has_calls (runCalls hist) es false = true ↔ es.Sublist hist) ∧
    assert_has_calls (runCalls [callOne, callTwo]) [callOne, callTwo] false
      = true ∧
    assert_has_calls (runCalls [callOne, callTwo]) [callTwo, callOne] false
      = false ∧
    assert_has_calls (runCalls [callOne, callTwo]) [callTwo, callOne] true
      = true := by
  refine ⟨?_, ?_, ?_, ?_⟩
  · intro es hist
    rw [assert_has_calls, if_neg (by simp), runCalls_history]
    exact subseqB_iff_sublist es hist
  · decide
  · decide
  · decide

end MockExamples
